import Mathlib

/-!
# Homelab dashboard: application registry and metrics collector

A shallow embedding of the Go backend (`internal/models`, `internal/database`,
`internal/handlers`, `internal/metrics`) together with the properties of the
registry (CRUD on the `applications` table) and of the metrics collector.

Conventions of the embedding

* Go `string` is `String`, `uint64` and `int` values are only copied and are `Nat`.
* A `float64` is only ever copied by the code (never computed with), so it is
  represented by its IEEE-754 bit pattern; the Go literal `0` is the pattern `0`.
* A `time.Time` is an instant counted in nanoseconds from the zero value of
  `time.Time`; the zero value is `0`.
* The SQLite table is the list of its rows in insertion order; the statements of
  `database.go` are embedded by their SQL meaning, the `PRIMARY KEY` of `migrate`
  included.
* Everything the code obtains from outside (the generated uuid, the clock, the
  outcome of driver calls, `url.ParseRequestURI`, the gopsutil readings and
  `runtime.GOOS`) is an explicit argument.
-/

namespace Homelab

/-! ## models -/

/-- Instant of a Go `time.Time`, in nanoseconds from the zero value of `time.Time`. -/
abbrev Time := Nat

/-- Bit pattern of a Go `float64`. -/
abbrev Float64 := Nat

/-- Go struct `models.Application`. -/
structure Application where
  ID : String
  Name : String
  Description : String
  URL : String
  Icon : String
  CreatedAt : Time
  UpdatedAt : Time
  deriving DecidableEq, Repr

/-- Go struct `models.CreateApplicationRequest`. -/
structure CreateApplicationRequest where
  Name : String
  Description : String
  URL : String
  Icon : String
  deriving DecidableEq, Repr

/-- Go struct `models.CoreUsage`. -/
structure CoreUsage where
  Core : Nat
  Usage : Float64
  deriving DecidableEq, Repr

/-- Go struct `models.CPUMetrics`. -/
structure CPUMetrics where
  Usage : Float64
  Cores : List CoreUsage
  deriving DecidableEq, Repr

/-- Go struct `models.MemoryMetrics`. -/
structure MemoryMetrics where
  Total : Nat
  Used : Nat
  Free : Nat
  UsedPercent : Float64
  deriving DecidableEq, Repr

/-- Go struct `models.DiskMetrics`. -/
structure DiskMetrics where
  Total : Nat
  Used : Nat
  Free : Nat
  UsedPercent : Float64
  Mount : String
  deriving DecidableEq, Repr

/-- Go struct `models.Metrics`. -/
structure Metrics where
  CPU : CPUMetrics
  Memory : MemoryMetrics
  Disk : DiskMetrics
  deriving DecidableEq, Repr

/-- The Go zero value `models.CoreUsage{}`. -/
def CoreUsage.zero : CoreUsage := ⟨0, 0⟩

/-- The Go zero value `models.CPUMetrics{}` (a nil slice is the empty list). -/
def CPUMetrics.zero : CPUMetrics := ⟨0, []⟩

/-- The Go zero value `models.MemoryMetrics{}`. -/
def MemoryMetrics.zero : MemoryMetrics := ⟨0, 0, 0, 0⟩

/-- The Go zero value `models.DiskMetrics{}`. -/
def DiskMetrics.zero : DiskMetrics := ⟨0, 0, 0, 0, ""⟩

/-- The Go zero value `models.Metrics{}`. -/
def Metrics.zero : Metrics := ⟨CPUMetrics.zero, MemoryMetrics.zero, DiskMetrics.zero⟩

/-! ## database -/

/-- The `applications` table of `migrate`: its rows, in insertion order. -/
structure Database where
  rows : List Application
  deriving DecidableEq, Repr

/-- The errors built by `database.go` with `fmt.Errorf`: the bare
"application not found", or "failed to ...: %w" around a driver error. -/
inductive DbError where
  | notFound
  | failed (what : String)
  deriving DecidableEq, Repr

/-- Outcome of the driver calls made during one database call. -/
structure Driver where
  /-- whether `db.Exec`, `db.Query` or `QueryRow(..).Scan` returns a driver error
  (for `Scan`: one other than `sql.ErrNoRows`) -/
  execErr : Bool
  /-- whether `result.RowsAffected()` returns an error -/
  rowsAffectedErr : Bool
  /-- whether `rows.Scan` inside the loop of `GetApplications` returns an error -/
  scanErr : Bool
  deriving DecidableEq, Repr

/-- A driver on which every call succeeds. -/
def Driver.healthy : Driver := ⟨false, false, false⟩

/-- The column `id TEXT PRIMARY KEY` of `migrate`: no two rows share an id. -/
def Database.PrimaryKey (d : Database) : Prop := (d.rows.map Application.ID).Nodup

/-- Does some row carry this id? -/
def Database.hasID (d : Database) (id : String) : Bool := d.rows.any (fun r => r.ID == id)

/-- Statement `SELECT ... WHERE id = ?` read through `QueryRow`: the first matching row. -/
def Database.selectByID (d : Database) (id : String) : Option Application :=
  d.rows.find? (fun r => r.ID == id)

/-- Clause `ORDER BY created_at DESC` (rows with equal `created_at` keep their table order). -/
def orderByCreatedAtDesc (rows : List Application) : List Application :=
  rows.insertionSort (fun a b => b.CreatedAt ≤ a.CreatedAt)

/-- Go `(*Database).CreateApplication`; `id` is `uuid.New().String()`, `now` is `time.Now()`.
The `INSERT` fails on a driver error or when the primary key is already there. -/
def Database.CreateApplication (d : Database) (id : String) (now : Time) (drv : Driver)
    (req : CreateApplicationRequest) : Except DbError Application × Database :=
  if drv.execErr || d.hasID id then
    (.error (.failed "create application"), d)
  else
    (.ok { ID := id, Name := req.Name, Description := req.Description, URL := req.URL,
           Icon := req.Icon, CreatedAt := now, UpdatedAt := now },
     ⟨d.rows ++ [{ ID := id, Name := req.Name, Description := req.Description,
                   URL := req.URL, Icon := req.Icon, CreatedAt := now, UpdatedAt := now }]⟩)

/-- Go `(*Database).GetApplications`. -/
def Database.GetApplications (d : Database) (drv : Driver) : Except DbError (List Application) :=
  if drv.execErr then .error (.failed "query applications")
  else if drv.scanErr && !(orderByCreatedAtDesc d.rows).isEmpty then
    .error (.failed "scan application")
  else .ok (orderByCreatedAtDesc d.rows)

/-- Go `(*Database).GetApplication`. -/
def Database.GetApplication (d : Database) (drv : Driver) (id : String) :
    Except DbError Application :=
  if drv.execErr then .error (.failed "get application")
  else
    match d.selectByID id with
    | none => .error .notFound
    | some app => .ok app

/-- The row written by `UPDATE applications SET name = ?, description = ?, url = ?,
icon = ?, updated_at = ?` over a matching row. -/
def updateRow (now : Time) (req : CreateApplicationRequest) (r : Application) : Application :=
  { r with Name := req.Name, Description := req.Description, URL := req.URL,
           Icon := req.Icon, UpdatedAt := now }

/-- Go `(*Database).UpdateApplication`; `now` is `time.Now()`. The returned struct literal
names no `CreatedAt`, which is therefore the zero `time.Time`. -/
def Database.UpdateApplication (d : Database) (now : Time) (drv : Driver) (id : String)
    (req : CreateApplicationRequest) : Except DbError Application × Database :=
  if drv.execErr then (.error (.failed "update application"), d)
  else
    let d' : Database := ⟨d.rows.map (fun r => if r.ID = id then updateRow now req r else r)⟩
    let rowsAffected := d.rows.countP (fun r => r.ID == id)
    if drv.rowsAffectedErr then (.error (.failed "get rows affected"), d')
    else if rowsAffected = 0 then (.error .notFound, d')
    else
      (.ok { ID := id, Name := req.Name, Description := req.Description, URL := req.URL,
             Icon := req.Icon, CreatedAt := 0, UpdatedAt := now }, d')

/-- Go `(*Database).DeleteApplication`. -/
def Database.DeleteApplication (d : Database) (drv : Driver) (id : String) :
    Except DbError Unit × Database :=
  if drv.execErr then (.error (.failed "delete application"), d)
  else
    let d' : Database := ⟨d.rows.filter (fun r => !(r.ID == id))⟩
    let rowsAffected := d.rows.countP (fun r => r.ID == id)
    if drv.rowsAffectedErr then (.error (.failed "get rows affected"), d')
    else if rowsAffected = 0 then (.error .notFound, d')
    else (.ok (), d')

/-! ## handlers -/

/-- What `respondJSON` encodes, or nothing at all (`w.WriteHeader` alone). -/
inductive Body where
  | application (app : Application)
  | applications (apps : List Application)
  | error (message : String)
  | empty
  deriving DecidableEq, Repr

/-- Status code and body written to the `http.ResponseWriter`. -/
structure Response where
  status : Nat
  body : Body
  deriving DecidableEq, Repr

/-- Go `http.StatusOK` -/
def StatusOK : Nat := 200
/-- Go `http.StatusCreated` -/
def StatusCreated : Nat := 201
/-- Go `http.StatusNoContent` -/
def StatusNoContent : Nat := 204
/-- Go `http.StatusBadRequest` -/
def StatusBadRequest : Nat := 400
/-- Go `http.StatusNotFound` -/
def StatusNotFound : Nat := 404
/-- Go `http.StatusInternalServerError` -/
def StatusInternalServerError : Nat := 500

/-- Go `respondJSON` -/
def respondJSON (status : Nat) (data : Body) : Response := ⟨status, data⟩

/-- Go `respondError` -/
def respondError (status : Nat) (message : String) : Response :=
  respondJSON status (.error message)

/-- What one request meets outside the handler: the uuid that `uuid.New()` will
return, the clock, and the behaviour of the driver. -/
structure World where
  uuid : String
  now : Time
  drv : Driver
  deriving DecidableEq, Repr

/-- Go struct `handlers.ApplicationHandler`. -/
structure ApplicationHandler where
  db : Database
  deriving DecidableEq, Repr

/-- The "Validate required fields" and "Validate URL format" checks shared by the
create and update handlers; `parseRequestURI u = true` when `url.ParseRequestURI(u)`
returns no error. `none` when the request passes. -/
def validate (parseRequestURI : String → Bool) (req : CreateApplicationRequest) :
    Option Response :=
  if req.Name = "" then some (respondError StatusBadRequest "Name is required")
  else if req.URL = "" then some (respondError StatusBadRequest "URL is required")
  else if !parseRequestURI req.URL then
    some (respondError StatusBadRequest "Invalid URL format")
  else none

/-- Go `(*ApplicationHandler).ListApplications` -/
def ApplicationHandler.ListApplications (h : ApplicationHandler) (w : World) :
    Response × ApplicationHandler :=
  match h.db.GetApplications w.drv with
  | .error _ => (respondError StatusInternalServerError "Failed to get applications", h)
  | .ok applications => (respondJSON StatusOK (.applications applications), h)

/-- Go `(*ApplicationHandler).GetApplication`; `id` is the path variable. -/
def ApplicationHandler.GetApplication (h : ApplicationHandler) (w : World) (id : String) :
    Response × ApplicationHandler :=
  match h.db.GetApplication w.drv id with
  | .error _ => (respondError StatusNotFound "Application not found", h)
  | .ok app => (respondJSON StatusOK (.application app), h)

/-- Go `(*ApplicationHandler).CreateApplication`; `body` is the decoded request body,
`none` when `json.Decode` fails. -/
def ApplicationHandler.CreateApplication (parseRequestURI : String → Bool)
    (h : ApplicationHandler) (w : World) (body : Option CreateApplicationRequest) :
    Response × ApplicationHandler :=
  match body with
  | none => (respondError StatusBadRequest "Invalid request body", h)
  | some req =>
    match validate parseRequestURI req with
    | some bad => (bad, h)
    | none =>
      match h.db.CreateApplication w.uuid w.now w.drv req with
      | (.error _, db) =>
        (respondError StatusInternalServerError "Failed to create application", ⟨db⟩)
      | (.ok app, db) => (respondJSON StatusCreated (.application app), ⟨db⟩)

/-- Go `(*ApplicationHandler).UpdateApplication`; `id` is the path variable. -/
def ApplicationHandler.UpdateApplication (parseRequestURI : String → Bool)
    (h : ApplicationHandler) (w : World) (id : String)
    (body : Option CreateApplicationRequest) : Response × ApplicationHandler :=
  match body with
  | none => (respondError StatusBadRequest "Invalid request body", h)
  | some req =>
    match validate parseRequestURI req with
    | some bad => (bad, h)
    | none =>
      match h.db.UpdateApplication w.now w.drv id req with
      | (.error _, db) => (respondError StatusNotFound "Application not found", ⟨db⟩)
      | (.ok app, db) => (respondJSON StatusOK (.application app), ⟨db⟩)

/-- Go `(*ApplicationHandler).DeleteApplication`; `id` is the path variable. -/
def ApplicationHandler.DeleteApplication (h : ApplicationHandler) (w : World) (id : String) :
    Response × ApplicationHandler :=
  match h.db.DeleteApplication w.drv id with
  | (.error _, db) => (respondError StatusNotFound "Application not found", ⟨db⟩)
  | (.ok _, db) => (⟨StatusNoContent, .empty⟩, ⟨db⟩)

/-! ## metrics -/

/-- The fields of gopsutil `mem.VirtualMemoryStat` read by the collector. -/
structure VirtualMemoryStat where
  Total : Nat
  Used : Nat
  Free : Nat
  UsedPercent : Float64
  deriving DecidableEq, Repr

/-- The fields of gopsutil `disk.UsageStat` read by the collector. -/
structure UsageStat where
  Total : Nat
  Used : Nat
  Free : Nat
  UsedPercent : Float64
  deriving DecidableEq, Repr

/-- What the host answers during one collect pass; `none` is a call returning an error. -/
structure Host where
  /-- value of `runtime.GOOS` -/
  goos : String
  /-- result of `cpu.Percent(time.Second, false)` -/
  cpuPercent : Option (List Float64)
  /-- result of `cpu.Percent(time.Second, true)` -/
  cpuPercentPerCore : Option (List Float64)
  /-- result of `mem.VirtualMemory()` -/
  virtualMemory : Option VirtualMemoryStat
  /-- result of `disk.Usage(path)`, by the number of the call within the pass
  (0 first, 1 retry) -/
  diskUsage : Nat → String → Option UsageStat

/-- Go struct `metrics.Collector`: the fields that carry data (`mu`, `interval`,
`ctx` and `cancel` drive scheduling only). -/
structure Collector where
  lastMetrics : Option Metrics
  mountPoint : String
  deriving DecidableEq, Repr

/-- The platform root chosen by the two `runtime.GOOS == "windows"` tests of `collectDisk`. -/
def platformRoot (goos : String) : String :=
  if goos = "windows" then "C:\\" else "/"

/-- Go `(*Collector).collectCPU`: the aggregate reading, then the per-core loop that
appends one `CoreUsage` per reading. -/
def Collector.collectCPU (_c : Collector) (host : Host) (metrics : Metrics) : Metrics :=
  let metrics : Metrics :=
    match host.cpuPercent with
    | none => { metrics with CPU := { metrics.CPU with Usage := 0 } }
    | some percent =>
      if h : 0 < percent.length then
        { metrics with CPU := { metrics.CPU with Usage := percent[0] } }
      else metrics
  match host.cpuPercentPerCore with
  | some corePercent =>
    corePercent.enum.foldl
      (fun m iu => { m with CPU := { m.CPU with Cores := m.CPU.Cores ++ [⟨iu.1, iu.2⟩] } })
      metrics
  | none => metrics

/-- Go `(*Collector).collectMemory` -/
def Collector.collectMemory (_c : Collector) (host : Host) (metrics : Metrics) : Metrics :=
  match host.virtualMemory with
  | none => metrics
  | some v =>
    { metrics with
      Memory := { Total := v.Total, Used := v.Used, Free := v.Free,
                  UsedPercent := v.UsedPercent } }

/-- Go `(*Collector).collectDisk`, on the `DiskMetrics` it is handed. -/
def Collector.collectDisk (c : Collector) (host : Host) (metrics : DiskMetrics) : DiskMetrics :=
  let mount := if c.mountPoint = "" then platformRoot host.goos else c.mountPoint
  match host.diskUsage 0 mount with
  | some usage =>
    { Total := usage.Total, Used := usage.Used, Free := usage.Free,
      UsedPercent := usage.UsedPercent, Mount := mount }
  | none =>
    match host.diskUsage 1 (platformRoot host.goos) with
    | none => metrics
    | some usage =>
      { Total := usage.Total, Used := usage.Used, Free := usage.Free,
        UsedPercent := usage.UsedPercent, Mount := mount }

/-- The value built by `(*Collector).collect` before it is published. -/
def Collector.measure (c : Collector) (host : Host) : Metrics :=
  let metrics := Metrics.zero
  let metrics := c.collectCPU host metrics
  let metrics := c.collectMemory host metrics
  { metrics with Disk := c.collectDisk host metrics.Disk }

/-- Go `(*Collector).collect`: measure, then store the result in `lastMetrics`. -/
def Collector.collect (c : Collector) (host : Host) : Collector :=
  { c with lastMetrics := some (c.measure host) }

/-- Go `make([]models.CoreUsage, n)`. -/
def makeCores (n : Nat) : List CoreUsage := List.replicate n CoreUsage.zero

/-- Go builtin `copy(dst, src)`: the first `min(len(dst), len(src))` elements of `dst`
are overwritten with those of `src`. -/
def copyCores (dst src : List CoreUsage) : List CoreUsage :=
  let n := min dst.length src.length
  src.take n ++ dst.drop n

/-- Go `(*Collector).GetMetrics`: the value returned, and the collector afterwards. -/
def Collector.GetMetrics (c : Collector) : Metrics × Collector :=
  match c.lastMetrics with
  | none => (Metrics.zero, c)
  | some last =>
    let metrics := last
    ({ metrics with
       CPU := { metrics.CPU with
                Cores := copyCores (makeCores last.CPU.Cores.length) last.CPU.Cores } }, c)

/-- The collector as `NewCollector` builds it, before its first `collect`. -/
def Collector.fresh (mountPoint : String) : Collector := ⟨none, mountPoint⟩

/-- Go `NewCollector`, up to the start of the background goroutine. -/
def NewCollector (mountPoint : String) (host : Host) : Collector :=
  (Collector.fresh mountPoint).collect host

/-! ## Collector and readers as interleaved goroutines

The goroutine started by `NewCollector` runs `collect` again and again while any
number of goroutines call `GetMetrics`. Each goroutine advances one statement at a
time; a schedule decides who moves next. `c.mu` is not stored: a goroutine holds it
exactly between its `Lock`/`RLock` and its `Unlock`/`RUnlock`, which its program
counter tells. The `models.Metrics` values allocated by `&models.Metrics{}` live in a
heap and `c.lastMetrics` is an address into it. -/

/-- Where the goroutine running `collect` stands; `p` is the address of the value
allocated by the pass under way. -/
inductive WriterPC where
  /-- between two passes -/
  | idle
  /-- after `metrics := &models.Metrics{}`, before `c.collectCPU(metrics)` -/
  | cpu (p : Nat)
  /-- before `c.collectMemory(metrics)` -/
  | memory (p : Nat)
  /-- before `c.collectDisk(&metrics.Disk)` -/
  | disk (p : Nat)
  /-- before `c.mu.Lock()` -/
  | lock (p : Nat)
  /-- lock held, before `c.lastMetrics = metrics` -/
  | store (p : Nat)
  /-- before `c.mu.Unlock()` -/
  | unlock (p : Nat)
  deriving DecidableEq, Repr

/-- The collecting goroutine holds `c.mu` for writing. -/
def WriterPC.holdsLock : WriterPC → Bool
  | .store _ => true
  | .unlock _ => true
  | _ => false

/-- Where one call of `GetMetrics` stands; `m` is its local variable `metrics`. -/
inductive ReaderPC where
  /-- before `c.mu.RLock()` -/
  | start
  /-- read lock held, before the test `c.lastMetrics == nil` -/
  | locked
  /-- the test found nil, before `return &models.Metrics{}` -/
  | isNil
  /-- before `metrics := *c.lastMetrics` -/
  | nonNil
  /-- before `metrics.CPU.Cores = make(.., len(c.lastMetrics.CPU.Cores))` -/
  | copied (m : Metrics)
  /-- before `copy(metrics.CPU.Cores, c.lastMetrics.CPU.Cores)` -/
  | made (m : Metrics)
  /-- before `return &metrics`, the deferred `RUnlock` still to run -/
  | filled (m : Metrics)
  /-- the call has returned `m` -/
  | returned (m : Metrics)
  deriving DecidableEq, Repr

/-- The call holds `c.mu` for reading. -/
def ReaderPC.holdsRLock : ReaderPC → Bool
  | .start => false
  | .returned _ => false
  | _ => true

/-- The collector shared by the goroutines. -/
structure Sys where
  /-- the `models.Metrics` values allocated so far, by address -/
  heap : List Metrics
  /-- the field `c.lastMetrics` -/
  lastMetrics : Option Nat
  /-- the collecting goroutine -/
  writer : WriterPC
  /-- the calls of `GetMetrics` begun so far -/
  readers : List ReaderPC
  /-- number of passes whose snapshot has been stored in `c.lastMetrics` -/
  published : Nat
  deriving DecidableEq, Repr

/-- One move of the schedule. -/
inductive Action where
  /-- the collecting goroutine executes its next statement -/
  | collectStep
  /-- some goroutine enters `GetMetrics` -/
  | call
  /-- the `i`-th call of `GetMetrics` executes its next statement -/
  | readStep (i : Nat)
  deriving DecidableEq, Repr

/-- The collector when `NewCollector` returns: its first pass, on the readings
`hosts 0`, has been stored, and nobody has called `GetMetrics` yet. Pass `k` meets
the readings `hosts k`. -/
def Sys.init (mountPoint : String) (hosts : Nat → Host) : Sys :=
  { heap := [(Collector.fresh mountPoint).measure (hosts 0)]
    lastMetrics := some 0
    writer := .idle
    readers := []
    published := 1 }

/-- The value `*c.lastMetrics`, when the pointer is not nil. -/
def Sys.deref (s : Sys) : Option Metrics :=
  match s.lastMetrics with
  | none => none
  | some p => s.heap[p]?

/-- The next statement of `collect` (`none`: the goroutine is blocked on `Lock`). -/
def Sys.collectStep (mountPoint : String) (hosts : Nat → Host) (s : Sys) : Option Sys :=
  match s.writer with
  | .idle => some { s with heap := s.heap ++ [Metrics.zero], writer := .cpu s.heap.length }
  | .cpu p =>
    match s.heap[p]? with
    | none => none
    | some m =>
      some { s with
        heap := s.heap.set p ((Collector.fresh mountPoint).collectCPU (hosts s.published) m)
        writer := .memory p }
  | .memory p =>
    match s.heap[p]? with
    | none => none
    | some m =>
      some { s with
        heap := s.heap.set p ((Collector.fresh mountPoint).collectMemory (hosts s.published) m)
        writer := .disk p }
  | .disk p =>
    match s.heap[p]? with
    | none => none
    | some m =>
      some { s with
        heap := s.heap.set p
          { m with Disk := (Collector.fresh mountPoint).collectDisk (hosts s.published) m.Disk }
        writer := .lock p }
  | .lock p =>
    if s.readers.any ReaderPC.holdsRLock then none else some { s with writer := .store p }
  | .store p =>
    some { s with lastMetrics := some p, published := s.published + 1, writer := .unlock p }
  | .unlock _ => some { s with writer := .idle }

/-- The next statement of a call of `GetMetrics` standing at `pc` (`none`: blocked on
`RLock`, finished, or dereferencing nil). -/
def Sys.readNext (s : Sys) : ReaderPC → Option ReaderPC
  | .start => if s.writer.holdsLock then none else some .locked
  | .locked =>
    match s.lastMetrics with
    | none => some .isNil
    | some _ => some .nonNil
  | .isNil => some (.returned Metrics.zero)
  | .nonNil =>
    match s.deref with
    | none => none
    | some last => some (.copied last)
  | .copied m =>
    match s.deref with
    | none => none
    | some last =>
      some (.made { m with CPU := { m.CPU with Cores := makeCores last.CPU.Cores.length } })
  | .made m =>
    match s.deref with
    | none => none
    | some last =>
      some (.filled { m with
        CPU := { m.CPU with Cores := copyCores m.CPU.Cores last.CPU.Cores } })
  | .filled m => some (.returned m)
  | .returned _ => none

/-- The `i`-th call of `GetMetrics` executes its next statement. -/
def Sys.readStep (s : Sys) (i : Nat) : Option Sys :=
  match s.readers[i]? with
  | none => none
  | some pc =>
    match s.readNext pc with
    | none => none
    | some pc' => some { s with readers := s.readers.set i pc' }

/-- One move. -/
def Sys.step (mountPoint : String) (hosts : Nat → Host) (s : Sys) : Action → Option Sys
  | .collectStep => s.collectStep mountPoint hosts
  | .call => some { s with readers := s.readers ++ [.start] }
  | .readStep i => s.readStep i

/-- A whole schedule, move by move; `none` when it asks a goroutine to move that cannot. -/
def Sys.run (mountPoint : String) (hosts : Nat → Host) (s : Sys) : List Action → Option Sys
  | [] => some s
  | a :: rest =>
    match s.step mountPoint hosts a with
    | none => none
    | some s' => Sys.run mountPoint hosts s' rest

/-- The snapshot built by pass `k`: one uninterrupted `collect` on the readings `hosts k`. -/
def passSnapshot (mountPoint : String) (hosts : Nat → Host) (k : Nat) : Metrics :=
  (Collector.fresh mountPoint).measure (hosts k)

/-- What the value under construction looks like at each statement of `collect`, and
that no reader holds the lock while the writer does. -/
def WriterInv (mountPoint : String) (hosts : Nat → Host) (s : Sys) : Prop :=
  match s.writer with
  | .idle => True
  | .cpu q => s.heap[q]? = some Metrics.zero ∧ s.lastMetrics ≠ some q
  | .memory q =>
    s.heap[q]? = some ((Collector.fresh mountPoint).collectCPU (hosts s.published) Metrics.zero) ∧
    s.lastMetrics ≠ some q
  | .disk q =>
    s.heap[q]? = some ((Collector.fresh mountPoint).collectMemory (hosts s.published)
      ((Collector.fresh mountPoint).collectCPU (hosts s.published) Metrics.zero)) ∧
    s.lastMetrics ≠ some q
  | .lock q => s.heap[q]? = some (passSnapshot mountPoint hosts s.published)
  | .store q =>
    s.heap[q]? = some (passSnapshot mountPoint hosts s.published) ∧
    ∀ r ∈ s.readers, r.holdsRLock = false
  | .unlock _ => ∀ r ∈ s.readers, r.holdsRLock = false

/-- What a call of `GetMetrics` holds in `metrics` at each of its statements, `v` being
the snapshot published last. -/
def ReaderInv (mountPoint : String) (hosts : Nat → Host) (published : Nat) (v : Metrics) :
    ReaderPC → Prop
  | .start => True
  | .locked => True
  | .isNil => False
  | .nonNil => True
  | .copied m => m = v
  | .made m => m = { v with CPU := { v.CPU with Cores := makeCores v.CPU.Cores.length } }
  | .filled m => m = v
  | .returned m => ∃ k, k < published ∧ m = passSnapshot mountPoint hosts k

/-- The invariant of the interleaved system. -/
structure Inv (mountPoint : String) (hosts : Nat → Host) (s : Sys) : Prop where
  pos : 0 < s.published
  last : s.deref = some (passSnapshot mountPoint hosts (s.published - 1))
  writer : WriterInv mountPoint hosts s
  readers : ∀ r ∈ s.readers,
    ReaderInv mountPoint hosts s.published (passSnapshot mountPoint hosts (s.published - 1)) r

/-! ## Concrete data used to exercise the definitions -/

namespace Example

/-- A catalog entry created at instant 1000. -/
def plex : Application := ⟨"a", "Plex", "", "http://plex.local:32400", "", 1000, 1000⟩

/-- A second entry, created at 2000 and last updated at 2500. -/
def gitea : Application := ⟨"b", "Gitea", "git", "http://git.local:3000", "", 2000, 2500⟩

/-- A table holding both entries. -/
def db : Database := ⟨[plex, gitea]⟩

/-- The handler over that table. -/
def handler : ApplicationHandler := ⟨db⟩

/-- A well-formed request. -/
def req : CreateApplicationRequest :=
  ⟨"Plex Media Server", "media", "http://plex.local:32400", "plex.png"⟩

/-- A request without a name. -/
def noName : CreateApplicationRequest := ⟨"", "", "x", ""⟩

/-- A URL check that accepts exactly the strings starting with "http://" or "/". -/
def urlCheck (u : String) : Bool :=
  u.data.take 7 == "http://".data || u.data.take 1 == "/".data

/-- A request served at instant 3000 with a working driver; `uuid.New()` yields "c". -/
def world : World := ⟨"c", 3000, Driver.healthy⟩

/-- A request during which the first driver call fails. -/
def brokenWorld : World := ⟨"c", 3000, ⟨true, false, false⟩⟩

/-- The table after `plex` has been updated with `req` at instant 3000. -/
def dbUpdated : Database :=
  ⟨[⟨"a", "Plex Media Server", "media", "http://plex.local:32400", "plex.png", 1000, 3000⟩,
    gitea]⟩

/-- The record that `UpdateApplication` hands back for that update. -/
def updateResult : Application :=
  ⟨"a", "Plex Media Server", "media", "http://plex.local:32400", "plex.png", 0, 3000⟩

/-- The record created from `req` at instant 3000 under the id "c". -/
def created : Application :=
  ⟨"c", "Plex Media Server", "media", "http://plex.local:32400", "plex.png", 3000, 3000⟩

/-- A Linux host on which only the root file system can be queried, the memory
reading fails, and both CPU readings succeed. -/
def host : Host :=
  { goos := "linux"
    cpuPercent := some [5, 6]
    cpuPercentPerCore := some [7, 8, 9]
    virtualMemory := none
    diskUsage := fun _ path => if path = "/" then some ⟨100, 40, 60, 77⟩ else none }

/-- A collector configured to watch "/mnt/data", before its first pass. -/
def collector : Collector := Collector.fresh "/mnt/data"

/-- What one pass on `host` produces for that collector. -/
def measured : Metrics :=
  { CPU := ⟨5, [⟨0, 7⟩, ⟨1, 8⟩, ⟨2, 9⟩]⟩
    Memory := MemoryMetrics.zero
    Disk := ⟨100, 40, 60, 77, "/mnt/data"⟩ }

/-- A later state of the host: memory can be read, the aggregate CPU usage is 50. -/
def hostLater : Host :=
  { host with cpuPercent := some [50], virtualMemory := some ⟨8, 4, 4, 50⟩ }

/-- The readings met by the successive passes: `host` first, `hostLater` ever after. -/
def hosts (k : Nat) : Host := if k = 0 then host else hostLater

/-- A schedule in which a first call of `GetMetrics` is overtaken by a whole pass
before it returns, and a second call runs after that pass has been published. -/
def schedule : List Action :=
  [.call, .readStep 0, .readStep 0, .readStep 0,
   .collectStep, .collectStep, .collectStep, .collectStep,
   .call, .readStep 0, .readStep 0, .readStep 0,
   .collectStep, .collectStep, .collectStep,
   .readStep 1, .readStep 1, .readStep 1, .readStep 1, .readStep 1, .readStep 1]

/-- What the second pass produces. -/
def measuredLater : Metrics :=
  { CPU := ⟨50, [⟨0, 7⟩, ⟨1, 8⟩, ⟨2, 9⟩]⟩
    Memory := ⟨8, 4, 4, 50⟩
    Disk := ⟨100, 40, 60, 77, "/mnt/data"⟩ }

/-- The state reached by `schedule`. -/
def final : Sys :=
  { heap := [measured, measuredLater]
    lastMetrics := some 1
    writer := .idle
    readers := [.returned measured, .returned measuredLater]
    published := 2 }

end Example

/-! ## Registry: supporting lemmas -/

theorem Database.hasID_iff (d : Database) (i : String) :
    d.hasID i = true ↔ ∃ r ∈ d.rows, r.ID = i := by
  simp [Database.hasID]

theorem Database.countP_eq_zero_iff (d : Database) (i : String) :
    d.rows.countP (fun r => r.ID == i) = 0 ↔ d.hasID i = false := by
  simp [Database.hasID, List.countP_eq_zero]

theorem Database.selectByID_eq_none_iff (d : Database) (i : String) :
    d.selectByID i = none ↔ d.hasID i = false := by
  simp [Database.selectByID, Database.hasID]

theorem validate_eq_none_iff (parseRequestURI : String → Bool) (req : CreateApplicationRequest) :
    validate parseRequestURI req = none ↔
      req.Name ≠ "" ∧ req.URL ≠ "" ∧ parseRequestURI req.URL = true := by
  unfold validate
  by_cases h1 : req.Name = "" <;> by_cases h2 : req.URL = "" <;>
    by_cases h3 : parseRequestURI req.URL = true <;> simp [h1, h2, h3]

/-- Effect of `UpdateApplication` on the table whenever the `UPDATE` statement ran. -/
theorem Database.UpdateApplication_rows (d : Database) (now : Time) (drv : Driver) (i : String)
    (req : CreateApplicationRequest) (h : drv.execErr = false) :
    (d.UpdateApplication now drv i req).2.rows =
      d.rows.map (fun r => if r.ID = i then updateRow now req r else r) := by
  unfold Database.UpdateApplication
  simp only [h, Bool.false_eq_true, if_false]
  split_ifs <;> rfl

/-- The call `UpdateApplication` returns a record only if the `UPDATE` ran and matched a row. -/
theorem Database.UpdateApplication_ok (d : Database) (now : Time) (drv : Driver) (i : String)
    (req : CreateApplicationRequest) (app : Application)
    (h : (d.UpdateApplication now drv i req).1 = .ok app) :
    drv.execErr = false ∧ d.hasID i = true ∧
      app = { ID := i, Name := req.Name, Description := req.Description, URL := req.URL,
              Icon := req.Icon, CreatedAt := 0, UpdatedAt := now } := by
  unfold Database.UpdateApplication at h
  by_cases he : drv.execErr = true
  · simp [he] at h
  · by_cases hr : drv.rowsAffectedErr = true
    · simp [he, hr] at h
    · by_cases hc : d.rows.countP (fun r => r.ID == i) = 0
      · simp [he, hr, hc] at h
      · have hid : d.hasID i = true := by
          by_contra hn
          exact hc ((d.countP_eq_zero_iff i).2 (by simpa using hn))
        simp only [he, hr, hc, if_false, Bool.false_eq_true] at h
        refine ⟨by simpa using he, hid, ?_⟩
        injection h with h
        exact h.symm

/-- Effect of `DeleteApplication` on the table whenever the `DELETE` statement ran. -/
theorem Database.DeleteApplication_rows (d : Database) (drv : Driver) (i : String)
    (h : drv.execErr = false) :
    (d.DeleteApplication drv i).2.rows = d.rows.filter (fun r => !(r.ID == i)) := by
  unfold Database.DeleteApplication
  simp only [h, Bool.false_eq_true, if_false]
  split_ifs <;> rfl

/-- The primary key is kept by every statement of `database.go`. -/
theorem Database.PrimaryKey_preserved (d : Database) (hpk : d.PrimaryKey) (id i : String)
    (now : Time) (drv : Driver) (req : CreateApplicationRequest) :
    (d.CreateApplication id now drv req).2.PrimaryKey ∧
    (d.UpdateApplication now drv i req).2.PrimaryKey ∧
    (d.DeleteApplication drv i).2.PrimaryKey := by
  refine ⟨?_, ?_, ?_⟩
  · unfold Database.CreateApplication
    by_cases hc : (drv.execErr || d.hasID id) = true
    · simpa [hc] using hpk
    · simp only [hc, if_false, Bool.false_eq_true]
      have hno : d.hasID id = false := by
        cases hx : d.hasID id
        · rfl
        · simp [hx] at hc
      unfold Database.PrimaryKey at hpk ⊢
      simp only [List.map_append, List.map_cons, List.map_nil]
      rw [List.nodup_append]
      refine ⟨hpk, List.nodup_singleton _, ?_⟩
      rw [List.disjoint_singleton]
      intro hmem
      rcases List.mem_map.1 hmem with ⟨r, hr, hrid⟩
      have : d.hasID id = true := (d.hasID_iff id).2 ⟨r, hr, hrid⟩
      simp [hno] at this
  · by_cases he : drv.execErr = true
    · simpa [Database.UpdateApplication, he] using hpk
    · have he' : drv.execErr = false := by simpa using he
      unfold Database.PrimaryKey at hpk ⊢
      rw [d.UpdateApplication_rows now drv i req he', List.map_map]
      have : (Application.ID ∘ fun r => if r.ID = i then updateRow now req r else r)
          = Application.ID := by
        funext r
        by_cases hr : r.ID = i <;> simp [hr, updateRow]
      rw [this]
      exact hpk
  · by_cases he : drv.execErr = true
    · simpa [Database.DeleteApplication, he] using hpk
    · have he' : drv.execErr = false := by simpa using he
      unfold Database.PrimaryKey at hpk ⊢
      rw [d.DeleteApplication_rows drv i he']
      exact hpk.sublist (List.Sublist.map _ (List.filter_sublist _))

theorem orderByCreatedAtDesc_perm (rows : List Application) :
    (orderByCreatedAtDesc rows).Perm rows :=
  List.perm_insertionSort _ rows

/-- With a working driver `GetApplications` answers the rows ordered by `created_at`. -/
theorem Database.GetApplications_healthy (d : Database) :
    d.GetApplications Driver.healthy = .ok (orderByCreatedAtDesc d.rows) := by
  simp [Database.GetApplications, Driver.healthy]

/-- The call `CreateApplication` returns a record only if the `INSERT` ran on a fresh key, and
then the table has gained exactly that record. -/
theorem Database.CreateApplication_ok (d d' : Database) (id : String) (now : Time)
    (drv : Driver) (req : CreateApplicationRequest) (app : Application)
    (h : d.CreateApplication id now drv req = (.ok app, d')) :
    d.hasID id = false ∧ d'.rows = d.rows ++ [app] ∧
      app = { ID := id, Name := req.Name, Description := req.Description, URL := req.URL,
              Icon := req.Icon, CreatedAt := now, UpdatedAt := now } := by
  unfold Database.CreateApplication at h
  by_cases hc : (drv.execErr || d.hasID id) = true
  · simp [hc] at h
  · simp only [hc, if_false, Bool.false_eq_true] at h
    have hno : d.hasID id = false := by
      cases hx : d.hasID id
      · rfl
      · simp [hx] at hc
    injection h with h1 h2
    injection h1 with h1
    subst h1
    exact ⟨hno, by rw [← h2], rfl⟩

/-- A request that fails a check is answered by `validate` with a 400 error. -/
theorem validate_rejects (parseRequestURI : String → Bool) (req : CreateApplicationRequest)
    (hbad : req.Name = "" ∨ req.URL = "" ∨ parseRequestURI req.URL = false) :
    ∃ message, validate parseRequestURI req = some (respondError StatusBadRequest message) := by
  unfold validate
  by_cases h1 : req.Name = ""
  · exact ⟨"Name is required", by simp [h1]⟩
  · by_cases h2 : req.URL = ""
    · exact ⟨"URL is required", by simp [h1, h2]⟩
    · have h3 : parseRequestURI req.URL = false := by
        rcases hbad with h | h | h
        · exact absurd h h1
        · exact absurd h h2
        · exact h
      exact ⟨"Invalid URL format", by simp [h1, h2, h3]⟩

/-- Under the primary key at most one row carries a given id. -/
theorem Database.countP_of_primaryKey (d : Database) (hpk : d.PrimaryKey) (i : String)
    (hid : d.hasID i = true) : d.rows.countP (fun r => r.ID == i) = 1 := by
  have hmem : i ∈ d.rows.map Application.ID := by
    rcases (d.hasID_iff i).1 hid with ⟨r, hr, hri⟩
    exact List.mem_map.2 ⟨r, hr, hri⟩
  have hc : (d.rows.map Application.ID).count i = 1 := List.count_eq_one_of_mem hpk hmem
  rw [List.count, List.countP_map] at hc
  exact hc

/-- The outcome of `DeleteApplication`, case by case. -/
theorem Database.DeleteApplication_result (d d' : Database) (drv : Driver) (i : String)
    (res : Except DbError Unit) (hd : d.DeleteApplication drv i = (res, d'))
    (hres : res = .ok () ∨ res = .error .notFound) :
    drv.execErr = false ∧ (res = .ok () → d.hasID i = true) := by
  unfold Database.DeleteApplication at hd
  by_cases he : drv.execErr = true
  · simp only [he, if_true] at hd
    obtain ⟨rfl, -⟩ := Prod.mk.inj hd
    rcases hres with h | h <;> cases h
  · refine ⟨by simpa using he, fun hok => ?_⟩
    subst hok
    by_cases hr : drv.rowsAffectedErr = true
    · simp [he, hr] at hd
    · by_cases hc : d.rows.countP (fun r => r.ID == i) = 0
      · simp [he, hr, hc] at hd
      · by_contra hn
        exact hc ((d.countP_eq_zero_iff i).2 (by simpa using hn))

/-! ## Registry: the claims -/

/-- C1 (the code departs from the claim). On the table holding the entry "a" created at
instant 1000, a well-formed update of "a" served by a working driver succeeds with
status 200 and a record whose id is "a", but whose created_at is the zero time and not
the created_at stored under "a" before the call (which the table itself still holds). -/
theorem update_response_loses_created_at :
    Example.db.selectByID "a" = some Example.plex ∧
    validate Example.urlCheck Example.req = none ∧
    Example.handler.UpdateApplication Example.urlCheck Example.world "a" (some Example.req) =
      (⟨StatusOK, .application Example.updateResult⟩, ⟨Example.dbUpdated⟩) ∧
    Example.updateResult.ID = "a" ∧
    Example.updateResult.CreatedAt = 0 ∧
    Example.plex.CreatedAt = 1000 ∧
    Example.dbUpdated.selectByID "a" =
      some { Example.updateResult with CreatedAt := 1000 } := by
  refine ⟨rfl, ?_, ?_, rfl, rfl, rfl, rfl⟩
  · decide
  · decide

/-- C2. A successful `UpdateApplication(i, req)` at time `now` keeps the table row for
row: the id is present; the number of rows, and the id and created_at of every row, are
unchanged; a row with id `i` gets name, description, url and icon from the request and
updated_at = now (so its updated_at does not decrease when now is not earlier than the
previous value); every row with another id is left as it was. -/
theorem update_changes_only_the_row (d d' : Database) (now : Time) (drv : Driver) (i : String)
    (req : CreateApplicationRequest) (app : Application)
    (h : d.UpdateApplication now drv i req = (.ok app, d')) :
    d.hasID i = true ∧ d'.rows.length = d.rows.length ∧
    ∀ (k : Nat) (hk : k < d.rows.length) (hk' : k < d'.rows.length),
      (d'.rows[k]).ID = (d.rows[k]).ID ∧
      (d'.rows[k]).CreatedAt = (d.rows[k]).CreatedAt ∧
      ((d.rows[k]).ID = i →
        (d'.rows[k]).Name = req.Name ∧ (d'.rows[k]).Description = req.Description ∧
        (d'.rows[k]).URL = req.URL ∧ (d'.rows[k]).Icon = req.Icon ∧
        (d'.rows[k]).UpdatedAt = now ∧
        ((d.rows[k]).UpdatedAt ≤ now → (d.rows[k]).UpdatedAt ≤ (d'.rows[k]).UpdatedAt)) ∧
      ((d.rows[k]).ID ≠ i → d'.rows[k] = d.rows[k]) := by
  have h1 : (d.UpdateApplication now drv i req).1 = .ok app := by rw [h]
  have h2 : (d.UpdateApplication now drv i req).2 = d' := by rw [h]
  obtain ⟨he, hid, -⟩ := d.UpdateApplication_ok now drv i req app h1
  have hrows := d.UpdateApplication_rows now drv i req he
  rw [h2] at hrows
  refine ⟨hid, by rw [hrows, List.length_map], ?_⟩
  intro k hk hk'
  have hget : d'.rows[k] = if (d.rows[k]).ID = i then updateRow now req d.rows[k]
      else d.rows[k] := by
    simp [hrows]
  rw [hget]
  by_cases hki : (d.rows[k]).ID = i
  · simp only [hki, if_true]
    refine ⟨by simp [updateRow, hki], by simp [updateRow], fun _ => ?_,
      fun hne => absurd rfl hne⟩
    simp [updateRow]
  · simp [hki]

/-- C2, exercised: updating "a" in the two-row table changes neither its length nor the
second row. -/
theorem update_changes_only_the_row_witness :
    Example.db.UpdateApplication 3000 Driver.healthy "a" Example.req =
      (.ok Example.updateResult, Example.dbUpdated) ∧
    Example.db.hasID "a" = true ∧
    Example.dbUpdated.rows.length = Example.db.rows.length :=
  ⟨rfl,
   (update_changes_only_the_row Example.db Example.dbUpdated 3000 Driver.healthy "a"
      Example.req Example.updateResult rfl).1,
   (update_changes_only_the_row Example.db Example.dbUpdated 3000 Driver.healthy "a"
      Example.req Example.updateResult rfl).2.1⟩

/-- C3. When the create handler answers 201 Created, its body is a record whose
created_at equals its updated_at, whose id differs from the id of every row stored
before the call, and whose name, description, url and icon are those of the request;
a listing served afterwards by a working driver succeeds and is a rearrangement of the
listing before the call with exactly that record added (on an empty table: that record
alone). -/
theorem create_returns_fresh_record (parseRequestURI : String → Bool)
    (h h' : ApplicationHandler) (w : World) (req : CreateApplicationRequest) (resp : Response)
    (hc : h.CreateApplication parseRequestURI w (some req) = (resp, h'))
    (hs : resp.status = StatusCreated) :
    ∃ app, resp.body = .application app ∧
      app.CreatedAt = app.UpdatedAt ∧
      (∀ r ∈ h.db.rows, r.ID ≠ app.ID) ∧
      app.Name = req.Name ∧ app.Description = req.Description ∧
      app.URL = req.URL ∧ app.Icon = req.Icon ∧
      ∀ w2 : World, w2.drv = Driver.healthy →
        ∃ before after,
          (h.ListApplications w2).1 = ⟨StatusOK, .applications before⟩ ∧
          (h'.ListApplications w2).1 = ⟨StatusOK, .applications after⟩ ∧
          after.Perm (app :: before) ∧
          (h.db.rows = [] → after = [app]) := by
  unfold ApplicationHandler.CreateApplication at hc
  simp only at hc
  cases hv : validate parseRequestURI req with
  | some bad =>
    simp only [hv] at hc
    obtain ⟨rfl, -⟩ := Prod.mk.inj hc
    unfold validate at hv
    split_ifs at hv <;> (cases hv; simp [respondError, respondJSON, StatusBadRequest,
      StatusCreated] at hs)
  | none =>
    simp only [hv] at hc
    rcases hdb : h.db.CreateApplication w.uuid w.now w.drv req with ⟨res, db⟩
    rw [hdb] at hc
    cases res with
    | error e =>
      simp only at hc
      obtain ⟨rfl, -⟩ := Prod.mk.inj hc
      simp [respondError, respondJSON, StatusInternalServerError, StatusCreated] at hs
    | ok app =>
      simp only at hc
      obtain ⟨rfl, rfl⟩ := Prod.mk.inj hc
      obtain ⟨hno, hrows, happ⟩ := h.db.CreateApplication_ok db w.uuid w.now w.drv req app hdb
      refine ⟨app, rfl, by simp [happ], ?_, by simp [happ], by simp [happ], by simp [happ],
        by simp [happ], ?_⟩
      · intro r hr hid
        have : h.db.hasID app.ID = true := (h.db.hasID_iff app.ID).2 ⟨r, hr, hid⟩
        have hid' : app.ID = w.uuid := by simp [happ]
        rw [hid', hno] at this
        exact Bool.false_ne_true this
      · intro w2 hw2
        refine ⟨orderByCreatedAtDesc h.db.rows, orderByCreatedAtDesc db.rows, ?_, ?_, ?_, ?_⟩
        · simp [ApplicationHandler.ListApplications, hw2, Database.GetApplications_healthy,
            respondJSON]
        · simp [ApplicationHandler.ListApplications, hw2, Database.GetApplications_healthy,
            respondJSON]
        · rw [hrows]
          refine (orderByCreatedAtDesc_perm _).trans ?_
          refine List.perm_append_singleton _ _ |>.trans ?_
          exact List.Perm.cons _ (orderByCreatedAtDesc_perm _).symm
        · intro hempty
          rw [hrows, hempty]
          rfl

/-- C3, exercised: creating `req` under the fresh id "c" on the two-row table. -/
theorem create_returns_fresh_record_witness :
    Example.handler.CreateApplication Example.urlCheck Example.world (some Example.req) =
      (⟨StatusCreated, .application Example.created⟩,
       ⟨⟨[Example.plex, Example.gitea, Example.created]⟩⟩) ∧
    ∃ app, (Response.mk StatusCreated (.application Example.created)).body = .application app ∧
      app.CreatedAt = app.UpdatedAt :=
  ⟨by decide,
   (create_returns_fresh_record Example.urlCheck Example.handler
      ⟨⟨[Example.plex, Example.gitea, Example.created]⟩⟩ Example.world Example.req
      ⟨StatusCreated, .application Example.created⟩ (by decide) rfl).imp
     (fun _ hp => ⟨hp.1, hp.2.1⟩)⟩

/-- C4 (the code departs from the claim). The id "a" is stored, yet when the driver call
fails the get, update and delete handlers all answer 404 "Application not found", the
very response they give for the absent id "zzz" on a working driver; the database layer
below them had told the two failures apart. -/
theorem storage_failure_answered_as_not_found :
    Example.db.hasID "a" = true ∧ Example.db.hasID "zzz" = false ∧
    Example.db.GetApplication Example.brokenWorld.drv "a" = .error (.failed "get application") ∧
    Example.db.GetApplication Example.world.drv "zzz" = .error .notFound ∧
    (Example.handler.GetApplication Example.brokenWorld "a").1 =
      ⟨StatusNotFound, .error "Application not found"⟩ ∧
    (Example.handler.GetApplication Example.world "zzz").1 =
      ⟨StatusNotFound, .error "Application not found"⟩ ∧
    (Example.handler.UpdateApplication Example.urlCheck Example.brokenWorld "a"
        (some Example.req)).1 = ⟨StatusNotFound, .error "Application not found"⟩ ∧
    (Example.handler.UpdateApplication Example.urlCheck Example.world "zzz"
        (some Example.req)).1 = ⟨StatusNotFound, .error "Application not found"⟩ ∧
    (Example.handler.DeleteApplication Example.brokenWorld "a").1 =
      ⟨StatusNotFound, .error "Application not found"⟩ ∧
    (Example.handler.DeleteApplication Example.world "zzz").1 =
      ⟨StatusNotFound, .error "Application not found"⟩ ∧
    (Example.handler.CreateApplication Example.urlCheck Example.brokenWorld
        (some Example.req)).1 =
      ⟨StatusInternalServerError, .error "Failed to create application"⟩ := by
  refine ⟨by decide, by decide, rfl, rfl, by decide, by decide, by decide, by decide,
    by decide, by decide, by decide⟩

/-- C7. A request whose name is empty, whose url is empty, or whose url the URL check
rejects is answered 400 (validation error) by both the create and the update handler;
the handler state, hence the table, is exactly what it was, and any listing served
afterwards gives the same response as it would have given before. -/
theorem invalid_request_leaves_store (parseRequestURI : String → Bool)
    (h : ApplicationHandler) (w : World) (i : String) (req : CreateApplicationRequest)
    (hbad : req.Name = "" ∨ req.URL = "" ∨ parseRequestURI req.URL = false) :
    (∃ message, (h.CreateApplication parseRequestURI w (some req)).1 =
        ⟨StatusBadRequest, .error message⟩) ∧
    (h.CreateApplication parseRequestURI w (some req)).2 = h ∧
    (∃ message, (h.UpdateApplication parseRequestURI w i (some req)).1 =
        ⟨StatusBadRequest, .error message⟩) ∧
    (h.UpdateApplication parseRequestURI w i (some req)).2 = h ∧
    (∀ w2 : World,
      (h.CreateApplication parseRequestURI w (some req)).2.ListApplications w2 =
        h.ListApplications w2 ∧
      (h.UpdateApplication parseRequestURI w i (some req)).2.ListApplications w2 =
        h.ListApplications w2) := by
  obtain ⟨message, hm⟩ := validate_rejects parseRequestURI req hbad
  have hcreate : h.CreateApplication parseRequestURI w (some req) =
      (⟨StatusBadRequest, .error message⟩, h) := by
    simp [ApplicationHandler.CreateApplication, hm, respondError, respondJSON]
  have hupdate : h.UpdateApplication parseRequestURI w i (some req) =
      (⟨StatusBadRequest, .error message⟩, h) := by
    simp [ApplicationHandler.UpdateApplication, hm, respondError, respondJSON]
  rw [hcreate, hupdate]
  exact ⟨⟨message, rfl⟩, rfl, ⟨message, rfl⟩, rfl, fun _ => ⟨rfl, rfl⟩⟩

/-- C7, exercised on the request with an empty name and url "x". -/
theorem invalid_request_leaves_store_witness :
    (Example.noName.Name = "" ∨ Example.noName.URL = "" ∨
      Example.urlCheck Example.noName.URL = false) ∧
    (Example.handler.CreateApplication Example.urlCheck Example.world
      (some Example.noName)).2 = Example.handler ∧
    (Example.handler.CreateApplication Example.urlCheck Example.world
      (some Example.noName)).1 = ⟨StatusBadRequest, .error "Name is required"⟩ :=
  ⟨Or.inl rfl,
   (invalid_request_leaves_store Example.urlCheck Example.handler Example.world "a"
      Example.noName (Or.inl rfl)).2.1,
   by decide⟩

/-- C8. Let `DeleteApplication(i)` either succeed or fail with "application not found".
Then the handler state is the table it left behind, a following `GetApplication(i)`
reports "application not found" whenever its own query runs, and the get handler
answers 404 whatever the driver does. When the delete succeeded, a row with id `i` was
there, the rows left are exactly the rows whose id is not `i`, in their old order and
unchanged, and under the primary key exactly one row is gone. -/
theorem delete_then_get_not_found (h : ApplicationHandler) (w : World) (i : String)
    (res : Except DbError Unit) (d' : Database)
    (hd : h.db.DeleteApplication w.drv i = (res, d'))
    (hres : res = .ok () ∨ res = .error .notFound) :
    (h.DeleteApplication w i).2 = ⟨d'⟩ ∧
    (res = .ok () → (h.DeleteApplication w i).1 = ⟨StatusNoContent, .empty⟩) ∧
    (∀ drv2 : Driver, drv2.execErr = false → d'.GetApplication drv2 i = .error .notFound) ∧
    (∀ w2 : World, ((ApplicationHandler.mk d').GetApplication w2 i).1 =
        ⟨StatusNotFound, .error "Application not found"⟩) ∧
    (res = .ok () →
      h.db.hasID i = true ∧
      (∀ r, r ∈ d'.rows ↔ r ∈ h.db.rows ∧ r.ID ≠ i) ∧
      d'.rows.Sublist h.db.rows ∧
      (h.db.PrimaryKey → d'.rows.length + 1 = h.db.rows.length)) := by
  obtain ⟨he, hpresent⟩ := h.db.DeleteApplication_result d' w.drv i res hd hres
  have hrows : d'.rows = h.db.rows.filter (fun r => !(r.ID == i)) := by
    have := h.db.DeleteApplication_rows w.drv i he
    rw [hd] at this
    exact this
  have hgone : d'.hasID i = false := by
    rw [Database.hasID, hrows]
    simp
  have hsel : d'.selectByID i = none := (d'.selectByID_eq_none_iff i).2 hgone
  have hget : ∀ drv2 : Driver, drv2.execErr = false →
      d'.GetApplication drv2 i = .error .notFound := by
    intro drv2 h2
    simp [Database.GetApplication, h2, hsel]
  refine ⟨?_, ?_, hget, ?_, ?_⟩
  · unfold ApplicationHandler.DeleteApplication
    rw [hd]
    rcases hres with rfl | rfl <;> rfl
  · intro hok
    subst hok
    unfold ApplicationHandler.DeleteApplication
    rw [hd]
  · intro w2
    unfold ApplicationHandler.GetApplication
    cases hx : w2.drv.execErr
    · rw [show (ApplicationHandler.mk d').db = d' from rfl, hget w2.drv hx]
      rfl
    · simp [Database.GetApplication, hx, respondError, respondJSON]
  · intro hok
    refine ⟨hpresent hok, ?_, ?_, ?_⟩
    · intro r
      rw [hrows]
      simp
    · rw [hrows]
      exact List.filter_sublist _
    · intro hpk
      have hone := h.db.countP_of_primaryKey hpk i (hpresent hok)
      have hlen := List.length_eq_countP_add_countP (fun r : Application => r.ID == i) h.db.rows
      rw [hrows, ← List.countP_eq_length_filter]
      rw [hone] at hlen
      simp only [Bool.not_eq_true, Bool.decide_eq_false] at hlen
      omega

/-- C8, exercised: deleting "a" from the two-row table leaves the other row. -/
theorem delete_then_get_not_found_witness :
    Example.handler.db.DeleteApplication Example.world.drv "a" = (.ok (), ⟨[Example.gitea]⟩) ∧
    (∀ w2 : World, ((ApplicationHandler.mk ⟨[Example.gitea]⟩).GetApplication w2 "a").1 =
        ⟨StatusNotFound, .error "Application not found"⟩) :=
  ⟨rfl,
   (delete_then_get_not_found Example.handler Example.world "a" (.ok ()) ⟨[Example.gitea]⟩
      rfl (Or.inl rfl)).2.2.2.1⟩

/-! ## Collector: supporting lemmas -/

/-- The per-core loop of `collectCPU` appends one entry per reading, numbered from 0. -/
theorem foldl_append_cores (l : List (Nat × Float64)) (m : Metrics) :
    l.foldl
      (fun m iu => { m with CPU := { m.CPU with Cores := m.CPU.Cores ++ [⟨iu.1, iu.2⟩] } }) m
    = { m with CPU := { m.CPU with
          Cores := m.CPU.Cores ++ l.map (fun iu => (⟨iu.1, iu.2⟩ : CoreUsage)) } } := by
  induction l generalizing m with
  | nil => simp
  | cons a l ih => simp [ih]

/-- The call `collectCPU` leaves the memory and disk sections alone. -/
theorem Collector.collectCPU_frame (c : Collector) (host : Host) (m : Metrics) :
    (c.collectCPU host m).Memory = m.Memory ∧ (c.collectCPU host m).Disk = m.Disk := by
  unfold Collector.collectCPU
  cases host.cpuPercentPerCore <;> cases host.cpuPercent <;>
    simp only [foldl_append_cores] <;> (try split_ifs) <;> constructor <;>
    first | rfl | trivial

/-- The CPU section written by `collectCPU` on a zero snapshot. -/
theorem Collector.collectCPU_zero (c : Collector) (host : Host) :
    (c.collectCPU host Metrics.zero).CPU =
      ⟨match host.cpuPercent with
        | some (p :: _) => p
        | _ => 0,
       match host.cpuPercentPerCore with
        | some l => l.enum.map (fun iu => (⟨iu.1, iu.2⟩ : CoreUsage))
        | none => []⟩ := by
  unfold Collector.collectCPU
  rcases hp : host.cpuPercent with _ | (_ | ⟨p, rest⟩) <;>
    rcases hc : host.cpuPercentPerCore with _ | l <;>
    simp [foldl_append_cores, Metrics.zero, CPUMetrics.zero]

/-- The three sections of the value built by one pass. -/
theorem Collector.measure_sections (c : Collector) (host : Host) :
    (c.measure host).CPU = (c.collectCPU host Metrics.zero).CPU ∧
    (c.measure host).Memory =
      (match host.virtualMemory with
        | some v => ⟨v.Total, v.Used, v.Free, v.UsedPercent⟩
        | none => MemoryMetrics.zero) ∧
    (c.measure host).Disk = c.collectDisk host DiskMetrics.zero := by
  obtain ⟨hf1, hf2⟩ := c.collectCPU_frame host Metrics.zero
  unfold Collector.measure Collector.collectMemory
  cases host.virtualMemory <;> simp only [hf1, hf2] <;> refine ⟨?_, ?_, ?_⟩ <;>
    first | rfl | trivial

/-- Copying a list into a freshly made slice of its own length gives the list back. -/
theorem copyCores_makeCores (l : List CoreUsage) : copyCores (makeCores l.length) l = l := by
  simp [copyCores, makeCores]

/-- Whenever `collectDisk` fills the section, `Mount` is the configured path (the
platform root when none is configured), whichever query supplied the figures. -/
theorem Collector.collectDisk_mount (c : Collector) (host : Host) (m : DiskMetrics)
    (h : host.diskUsage 0 (if c.mountPoint = "" then platformRoot host.goos else c.mountPoint)
          ≠ none ∨ host.diskUsage 1 (platformRoot host.goos) ≠ none) :
    (c.collectDisk host m).Mount =
      if c.mountPoint = "" then platformRoot host.goos else c.mountPoint := by
  unfold Collector.collectDisk
  simp only
  cases h0 : host.diskUsage 0 (if c.mountPoint = "" then platformRoot host.goos
      else c.mountPoint) with
  | some u => rfl
  | none =>
    cases h1 : host.diskUsage 1 (platformRoot host.goos) with
    | some u => rfl
    | none => simp [h0, h1] at h

/-! ## Collector: the claims -/

/-- C5 (the code departs from the claim). The collector is configured for "/mnt/data" on
a Linux host; the query of "/mnt/data" fails and the retry against the platform root "/"
succeeds with total 100, used 40, free 60. `collectDisk` fills the section with those
figures of "/", yet its mount field reads "/mnt/data", the path whose query failed. -/
theorem disk_mount_names_the_failed_path :
    Example.collector.mountPoint = "/mnt/data" ∧
    platformRoot Example.host.goos = "/" ∧
    Example.host.diskUsage 0 "/mnt/data" = none ∧
    Example.host.diskUsage 1 "/" = some ⟨100, 40, 60, 77⟩ ∧
    Example.collector.collectDisk Example.host DiskMetrics.zero =
      ⟨100, 40, 60, 77, "/mnt/data"⟩ ∧
    (Example.collector.collectDisk Example.host DiskMetrics.zero).Mount ≠
      platformRoot Example.host.goos := by
  refine ⟨rfl, by decide, by decide, by decide, by decide, by decide⟩

/-- C6. One collect pass is a total function of the host readings and always publishes
its snapshot. In that snapshot the aggregate CPU usage is the first value read (0 when
the reading failed or was empty); the per-core list holds one entry per value read,
numbered from 0 in order (empty when the reading failed); the memory section holds the
four values read (all zero when the reading failed); the disk figures are those of the
query that succeeded, the configured path first and the platform root on retry (the
whole section zero when both failed). Each section is the same on any two hosts that
agree on that section's own readings, whatever the other readings do. -/
theorem collect_sections_fail_independently (c : Collector) (host : Host) :
    (c.collect host).lastMetrics = some (c.measure host) ∧
    (c.collect host).mountPoint = c.mountPoint ∧
    (host.cpuPercent = none → (c.measure host).CPU.Usage = 0) ∧
    (host.cpuPercent = some [] → (c.measure host).CPU.Usage = 0) ∧
    (∀ p rest, host.cpuPercent = some (p :: rest) → (c.measure host).CPU.Usage = p) ∧
    (host.cpuPercentPerCore = none → (c.measure host).CPU.Cores = []) ∧
    (∀ l, host.cpuPercentPerCore = some l →
      (c.measure host).CPU.Cores.length = l.length ∧
      ∀ (k : Nat) (hk : k < l.length), (c.measure host).CPU.Cores[k]? = some ⟨k, l[k]⟩) ∧
    (host.virtualMemory = none → (c.measure host).Memory = MemoryMetrics.zero) ∧
    (∀ v, host.virtualMemory = some v →
      (c.measure host).Memory = ⟨v.Total, v.Used, v.Free, v.UsedPercent⟩) ∧
    (∀ u, host.diskUsage 0
        (if c.mountPoint = "" then platformRoot host.goos else c.mountPoint) = some u →
      (c.measure host).Disk.Total = u.Total ∧ (c.measure host).Disk.Used = u.Used ∧
      (c.measure host).Disk.Free = u.Free ∧
      (c.measure host).Disk.UsedPercent = u.UsedPercent) ∧
    (∀ u, host.diskUsage 0
        (if c.mountPoint = "" then platformRoot host.goos else c.mountPoint) = none →
      host.diskUsage 1 (platformRoot host.goos) = some u →
      (c.measure host).Disk.Total = u.Total ∧ (c.measure host).Disk.Used = u.Used ∧
      (c.measure host).Disk.Free = u.Free ∧
      (c.measure host).Disk.UsedPercent = u.UsedPercent) ∧
    (host.diskUsage 0
        (if c.mountPoint = "" then platformRoot host.goos else c.mountPoint) = none →
      host.diskUsage 1 (platformRoot host.goos) = none →
      (c.measure host).Disk = DiskMetrics.zero) ∧
    (∀ host2 : Host, host2.cpuPercent = host.cpuPercent →
      host2.cpuPercentPerCore = host.cpuPercentPerCore →
      (c.measure host2).CPU = (c.measure host).CPU) ∧
    (∀ host2 : Host, host2.virtualMemory = host.virtualMemory →
      (c.measure host2).Memory = (c.measure host).Memory) ∧
    (∀ host2 : Host, host2.goos = host.goos → host2.diskUsage = host.diskUsage →
      (c.measure host2).Disk = (c.measure host).Disk) := by
  obtain ⟨hcpu, hmem, hdisk⟩ := c.measure_sections host
  have hcpu' := hcpu.trans (c.collectCPU_zero host)
  refine ⟨rfl, rfl, ?_, ?_, ?_, ?_, ?_, ?_, ?_, ?_, ?_, ?_, ?_, ?_, ?_⟩
  · intro h
    rw [hcpu', h]
  · intro h
    rw [hcpu', h]
  · intro p rest h
    rw [hcpu', h]
  · intro h
    rw [hcpu', h]
  · intro l h
    rw [hcpu', h]
    refine ⟨by simp, fun k hk => ?_⟩
    simp [List.getElem?_enum, List.getElem?_eq_getElem hk]
  · intro h
    rw [hmem, h]
  · intro v h
    rw [hmem, h]
  · intro u h
    rw [hdisk]
    unfold Collector.collectDisk
    simp only [h, and_self]
  · intro u h0 h1
    rw [hdisk]
    unfold Collector.collectDisk
    simp only [h0, h1, and_self]
  · intro h0 h1
    rw [hdisk]
    unfold Collector.collectDisk
    simp only [h0, h1]
  · intro host2 h1 h2
    rw [hcpu', (c.measure_sections host2).1.trans (c.collectCPU_zero host2), h1, h2]
  · intro host2 h
    rw [hmem, (c.measure_sections host2).2.1, h]
  · intro host2 h1 h2
    rw [hdisk, (c.measure_sections host2).2.2]
    unfold Collector.collectDisk
    simp only [h1, h2]

/-- C9. `GetMetrics` returns the all-zero snapshot when nothing has been published (as
on a collector that has not yet run its first pass) and otherwise a snapshot equal to
the published one, its per-core list having the same length and the same entries at
the same positions; when `NewCollector` has returned, that is the snapshot of the first
pass. In every case the collector is left as it was. -/
theorem get_metrics_returns_published (c : Collector) :
    (c.lastMetrics = none → c.GetMetrics.1 = Metrics.zero) ∧
    (∀ m, c.lastMetrics = some m →
      c.GetMetrics.1 = m ∧
      c.GetMetrics.1.CPU.Cores.length = m.CPU.Cores.length ∧
      ∀ k : Nat, c.GetMetrics.1.CPU.Cores[k]? = m.CPU.Cores[k]?) ∧
    c.GetMetrics.2 = c ∧
    (∀ mountPoint : String, (Collector.fresh mountPoint).GetMetrics.1 = Metrics.zero) ∧
    (∀ (mountPoint : String) (host : Host),
      (NewCollector mountPoint host).GetMetrics.1 =
        (Collector.fresh mountPoint).measure host) := by
  have key : ∀ (c : Collector) (m : Metrics), c.lastMetrics = some m → c.GetMetrics.1 = m := by
    intro c m hm
    unfold Collector.GetMetrics
    simp only [hm, copyCores_makeCores]
  refine ⟨?_, ?_, ?_, fun _ => rfl, ?_⟩
  · intro h
    unfold Collector.GetMetrics
    simp only [h]
  · intro m hm
    rw [key c m hm]
    exact ⟨rfl, rfl, fun _ => rfl⟩
  · unfold Collector.GetMetrics
    cases c.lastMetrics <;> rfl
  · intro mountPoint host
    exact key _ _ rfl

/-! ## Interleaving: the invariant -/

theorem Sys.deref_eq_some {s : Sys} {v : Metrics} (h : s.deref = some v) :
    ∃ p, s.lastMetrics = some p ∧ s.heap[p]? = some v := by
  unfold Sys.deref at h
  cases hl : s.lastMetrics with
  | none => simp [hl] at h
  | some p => exact ⟨p, rfl, by simpa [hl] using h⟩

/-- Writing to an address other than `c.lastMetrics` does not change `*c.lastMetrics`. -/
theorem Sys.deref_set (s : Sys) (q : Nat) (x v : Metrics) (w : WriterPC)
    (h : s.deref = some v) (hq : s.lastMetrics ≠ some q) :
    ({ s with heap := s.heap.set q x, writer := w } : Sys).deref = some v := by
  obtain ⟨p, hl, hp⟩ := Sys.deref_eq_some h
  have hne : q ≠ p := fun e => hq (by rw [hl, e])
  simp only [Sys.deref, hl]
  rw [List.getElem?_set_ne hne]
  exact hp

theorem Inv.init (mountPoint : String) (hosts : Nat → Host) :
    Inv mountPoint hosts (Sys.init mountPoint hosts) where
  pos := Nat.one_pos
  last := rfl
  writer := trivial
  readers := by
    intro r hr
    simp [Sys.init] at hr

/-- A reader that holds the read lock excludes the writer from its critical section. -/
theorem Inv.writer_outside (mountPoint : String) (hosts : Nat → Host) (s : Sys)
    (hinv : Inv mountPoint hosts s) (r : ReaderPC) (hr : r ∈ s.readers)
    (hl : r.holdsRLock = true) : s.writer.holdsLock = false := by
  have hw := hinv.writer
  unfold WriterInv at hw
  cases hwr : s.writer with
  | store q =>
    rw [hwr] at hw
    have := hw.2 r hr
    rw [hl] at this
    exact absurd this (by decide)
  | unlock q =>
    rw [hwr] at hw
    have := hw r hr
    rw [hl] at this
    exact absurd this (by decide)
  | _ => rfl

/-- A statement of `collect` keeps the invariant. -/
theorem Inv.collectStep (mountPoint : String) (hosts : Nat → Host) (s s' : Sys)
    (hinv : Inv mountPoint hosts s) (hstep : s.collectStep mountPoint hosts = some s') :
    Inv mountPoint hosts s' := by
  obtain ⟨p, hl, hp⟩ := Sys.deref_eq_some hinv.last
  have hplt : p < s.heap.length := (List.getElem?_eq_some.1 hp).1
  have hw := hinv.writer
  unfold WriterInv at hw
  unfold Sys.collectStep at hstep
  cases hwr : s.writer with
  | idle =>
    rw [hwr] at hstep
    simp only [Option.some.injEq] at hstep
    subst hstep
    refine ⟨hinv.pos, ?_, ?_, hinv.readers⟩
    · simp only [Sys.deref, hl]
      rw [List.getElem?_append_left hplt]
      exact hp
    · unfold WriterInv
      refine ⟨List.getElem?_concat_length _ _, ?_⟩
      simp only [hl, ne_eq, Option.some.injEq]
      omega
  | cpu q =>
    rw [hwr] at hstep hw
    obtain ⟨hq, hne⟩ := hw
    simp only [hq, Option.some.injEq] at hstep
    subst hstep
    refine ⟨hinv.pos, Sys.deref_set s q _ _ _ hinv.last hne, ?_, hinv.readers⟩
    unfold WriterInv
    exact ⟨List.getElem?_set_self (List.getElem?_eq_some.1 hq).1, hne⟩
  | memory q =>
    rw [hwr] at hstep hw
    obtain ⟨hq, hne⟩ := hw
    simp only [hq, Option.some.injEq] at hstep
    subst hstep
    refine ⟨hinv.pos, Sys.deref_set s q _ _ _ hinv.last hne, ?_, hinv.readers⟩
    unfold WriterInv
    exact ⟨List.getElem?_set_self (List.getElem?_eq_some.1 hq).1, hne⟩
  | disk q =>
    rw [hwr] at hstep hw
    obtain ⟨hq, hne⟩ := hw
    simp only [hq, Option.some.injEq] at hstep
    subst hstep
    refine ⟨hinv.pos, Sys.deref_set s q _ _ _ hinv.last hne, ?_, hinv.readers⟩
    unfold WriterInv
    exact List.getElem?_set_self (List.getElem?_eq_some.1 hq).1
  | lock q =>
    rw [hwr] at hstep hw
    by_cases hany : s.readers.any ReaderPC.holdsRLock = true
    · simp [hany] at hstep
    · simp only [hany, if_false, Bool.false_eq_true, Option.some.injEq] at hstep
      subst hstep
      refine ⟨hinv.pos, hinv.last, ?_, hinv.readers⟩
      unfold WriterInv
      refine ⟨hw, fun r hr => ?_⟩
      cases hx : r.holdsRLock
      · rfl
      · exact absurd (List.any_eq_true.2 ⟨r, hr, hx⟩) hany
  | store q =>
    rw [hwr] at hstep hw
    obtain ⟨hq, hfree⟩ := hw
    simp only [Option.some.injEq] at hstep
    subst hstep
    refine ⟨Nat.succ_pos _, ?_, ?_, ?_⟩
    · simpa [Sys.deref] using hq
    · unfold WriterInv
      exact hfree
    · intro r hr
      have hr' := hinv.readers r hr
      have hfr := hfree r hr
      cases r with
      | start => trivial
      | returned m =>
        obtain ⟨k, hk, hm⟩ := hr'
        exact ⟨k, Nat.lt_succ_of_lt hk, hm⟩
      | _ => exact absurd hfr (by simp [ReaderPC.holdsRLock])
  | unlock q =>
    rw [hwr] at hstep
    simp only [Option.some.injEq] at hstep
    subst hstep
    exact ⟨hinv.pos, hinv.last, trivial, hinv.readers⟩

/-- A statement of `GetMetrics` keeps the invariant. -/
theorem Inv.readStep (mountPoint : String) (hosts : Nat → Host) (s s' : Sys) (i : Nat)
    (hinv : Inv mountPoint hosts s) (hstep : s.readStep i = some s') :
    Inv mountPoint hosts s' := by
  unfold Sys.readStep at hstep
  cases hpc : s.readers[i]? with
  | none => simp [hpc] at hstep
  | some pc =>
    simp only [hpc] at hstep
    cases hn : s.readNext pc with
    | none => simp [hn] at hstep
    | some pc' =>
      simp only [hn, Option.some.injEq] at hstep
      subst hstep
      have hmem : pc ∈ s.readers := List.getElem?_mem hpc
      have hrinv := hinv.readers pc hmem
      have hout := hinv.writer_outside mountPoint hosts s pc hmem
      have hlast := hinv.last
      have key : ReaderInv mountPoint hosts s.published
            (passSnapshot mountPoint hosts (s.published - 1)) pc' ∧
          (s.writer.holdsLock = true → pc'.holdsRLock = false) := by
        cases pc with
        | start =>
          unfold Sys.readNext at hn
          by_cases hh : s.writer.holdsLock = true
          · simp [hh] at hn
          · simp only [hh, if_false, Bool.false_eq_true, Option.some.injEq] at hn
            subst hn
            exact ⟨trivial, fun h => absurd h hh⟩
        | locked =>
          obtain ⟨p, hl, -⟩ := Sys.deref_eq_some hlast
          simp only [Sys.readNext, hl, Option.some.injEq] at hn
          subst hn
          exact ⟨trivial, fun h => by rw [hout rfl] at h; exact absurd h (by decide)⟩
        | isNil => exact absurd hrinv id
        | nonNil =>
          simp only [Sys.readNext, hlast, Option.some.injEq] at hn
          subst hn
          exact ⟨rfl, fun h => by rw [hout rfl] at h; exact absurd h (by decide)⟩
        | copied m =>
          simp only [Sys.readNext, hlast, Option.some.injEq] at hn
          subst hn
          have hm : m = passSnapshot mountPoint hosts (s.published - 1) := hrinv
          subst hm
          exact ⟨rfl, fun h => by rw [hout rfl] at h; exact absurd h (by decide)⟩
        | made m =>
          simp only [Sys.readNext, hlast, Option.some.injEq] at hn
          subst hn
          have hm : m = _ := hrinv
          refine ⟨?_, fun h => by rw [hout rfl] at h; exact absurd h (by decide)⟩
          show _ = _
          rw [hm]
          simp only [copyCores_makeCores]
        | filled m =>
          simp only [Sys.readNext, Option.some.injEq] at hn
          subst hn
          have hm : m = passSnapshot mountPoint hosts (s.published - 1) := hrinv
          exact ⟨⟨s.published - 1, Nat.sub_lt hinv.pos Nat.one_pos, hm⟩, fun _ => rfl⟩
        | returned m => simp [Sys.readNext] at hn
      refine ⟨hinv.pos, hinv.last, ?_, ?_⟩
      · have hw := hinv.writer
        unfold WriterInv at hw ⊢
        have hset : ∀ r ∈ s.readers.set i pc', (∀ r ∈ s.readers, r.holdsRLock = false) →
            s.writer.holdsLock = true → r.holdsRLock = false := by
          intro r hr hall hh
          rcases List.mem_or_eq_of_mem_set hr with h | h
          · exact hall r h
          · rw [h]
            exact key.2 hh
        cases hwr : s.writer with
        | store q =>
          rw [hwr] at hw
          exact ⟨hw.1, fun r hr => hset r hr hw.2 (by rw [hwr]; rfl)⟩
        | unlock q =>
          rw [hwr] at hw
          exact fun r hr => hset r hr hw (by rw [hwr]; rfl)
        | idle => trivial
        | cpu q => rw [hwr] at hw; exact hw
        | memory q => rw [hwr] at hw; exact hw
        | disk q => rw [hwr] at hw; exact hw
        | lock q => rw [hwr] at hw; exact hw
      · intro r hr
        rcases List.mem_or_eq_of_mem_set hr with h | h
        · exact hinv.readers r h
        · rw [h]
          exact key.1

/-- Every move keeps the invariant. -/
theorem Inv.step (mountPoint : String) (hosts : Nat → Host) (s s' : Sys) (a : Action)
    (hinv : Inv mountPoint hosts s) (hstep : s.step mountPoint hosts a = some s') :
    Inv mountPoint hosts s' := by
  cases a with
  | collectStep => exact hinv.collectStep mountPoint hosts s s' hstep
  | readStep i => exact hinv.readStep mountPoint hosts s s' i hstep
  | call =>
    simp only [Sys.step, Option.some.injEq] at hstep
    subst hstep
    refine ⟨hinv.pos, hinv.last, ?_, ?_⟩
    · have hw := hinv.writer
      unfold WriterInv at hw ⊢
      have hadd : (∀ r ∈ s.readers, r.holdsRLock = false) →
          ∀ r ∈ s.readers ++ [ReaderPC.start], r.holdsRLock = false := by
        intro hall r hr
        rcases List.mem_append.1 hr with h | h
        · exact hall r h
        · rw [List.mem_singleton.1 h]
          rfl
      cases hwr : s.writer with
      | store q => rw [hwr] at hw; exact ⟨hw.1, hadd hw.2⟩
      | unlock q => rw [hwr] at hw; exact hadd hw
      | idle => trivial
      | cpu q => rw [hwr] at hw; exact hw
      | memory q => rw [hwr] at hw; exact hw
      | disk q => rw [hwr] at hw; exact hw
      | lock q => rw [hwr] at hw; exact hw
    · intro r hr
      rcases List.mem_append.1 hr with h | h
      · exact hinv.readers r h
      · rw [List.mem_singleton.1 h]
        trivial

/-- The invariant holds after every schedule that can be run. -/
theorem Inv.run (mountPoint : String) (hosts : Nat → Host) (schedule : List Action) :
    ∀ s s' : Sys, Inv mountPoint hosts s → s.run mountPoint hosts schedule = some s' →
      Inv mountPoint hosts s' := by
  induction schedule with
  | nil =>
    intro s s' hinv hrun
    simp only [Sys.run, Option.some.injEq] at hrun
    exact hrun ▸ hinv
  | cons a rest ih =>
    intro s s' hinv hrun
    unfold Sys.run at hrun
    cases hs : s.step mountPoint hosts a with
    | none => simp [hs] at hrun
    | some s1 =>
      simp only [hs] at hrun
      exact ih s1 s' (hinv.step mountPoint hosts s s1 a hs) hrun

/-- The value built by a pass depends on the collector through `mountPoint` only. -/
theorem Collector.measure_eq_passSnapshot (c : Collector) (hosts : Nat → Host) (k : Nat) :
    c.measure (hosts k) = passSnapshot c.mountPoint hosts k := by
  cases c
  rfl

/-! ## Interleaving: the claim -/

/-- C10. Start from the collector as `NewCollector` returns it and let the collecting
goroutine and any number of `GetMetrics` calls advance statement by statement in any
order the lock allows. Then every call that has returned has returned, in all its
fields, the snapshot of one single pass `k` already published, where the snapshot of
pass `k` is what an uninterrupted `collect` stores on the readings of that pass; a call
about to return holds exactly the snapshot published last, which is also what
`c.lastMetrics` points to. -/
theorem readers_see_one_pass (mountPoint : String) (hosts : Nat → Host)
    (schedule : List Action) (s : Sys)
    (hrun : (Sys.init mountPoint hosts).run mountPoint hosts schedule = some s) :
    (∀ m, ReaderPC.returned m ∈ s.readers →
      ∃ k, k < s.published ∧ m = passSnapshot mountPoint hosts k ∧
        ∀ c : Collector, c.mountPoint = mountPoint →
          (c.collect (hosts k)).lastMetrics = some m) ∧
    (∀ m, ReaderPC.filled m ∈ s.readers →
      m = passSnapshot mountPoint hosts (s.published - 1)) ∧
    0 < s.published ∧
    s.deref = some (passSnapshot mountPoint hosts (s.published - 1)) := by
  have hinv := Inv.run mountPoint hosts schedule _ s (Inv.init mountPoint hosts) hrun
  refine ⟨?_, ?_, hinv.pos, hinv.last⟩
  · intro m hm
    obtain ⟨k, hk, hmk⟩ := hinv.readers _ hm
    refine ⟨k, hk, hmk, ?_⟩
    intro c hc
    rw [hmk, ← hc, ← c.measure_eq_passSnapshot hosts k]
    rfl
  · intro m hm
    exact hinv.readers _ hm

/-- C10, exercised: in `Example.schedule` a pass overtakes the first call while it
holds the read lock; the second call returns the snapshot of that later pass. -/
theorem readers_see_one_pass_witness :
    (Sys.init "/mnt/data" Example.hosts).run "/mnt/data" Example.hosts Example.schedule =
      some Example.final ∧
    ∃ k, k < Example.final.published ∧
      Example.measuredLater = passSnapshot "/mnt/data" Example.hosts k ∧
      ∀ c : Collector, c.mountPoint = "/mnt/data" →
        (c.collect (Example.hosts k)).lastMetrics = some Example.measuredLater :=
  ⟨by decide,
   (readers_see_one_pass "/mnt/data" Example.hosts Example.schedule Example.final
      (by decide)).1 Example.measuredLater (by decide)⟩

end Homelab
